import Mathlib

/-!
Shallow embedding of the GATT client in `src/attrib/client.c` (BlueZ attrib
client).  Pure data is modelled with `Nat` (machine integers are bounded
explicitly where it matters), byte strings with `List Nat`, and the D-Bus /
GLib side effects of each C function are returned explicitly (replies sent,
requests issued, refcount deltas) so that each callback becomes a pure
function from its inputs to its observable effects.
-/

set_option autoImplicit false

namespace GattClient

/-! ## ATT constants (att.h) -/

def ATT_ECODE_AUTHENTICATION : Nat := 0x05
def ATT_ECODE_INSUFF_ENC : Nat := 0x0F
def ATT_OP_HANDLE_NOTIFY : Nat := 0x1B
def ATT_OP_HANDLE_IND : Nat := 0x1D

/-! ## Hex formatting and parsing helpers

`characteristic_list_to_string` uses `snprintf "%04X#%02X#%04X#%s "` and
`string_to_characteristic_list` uses `sscanf "%04hX#%02hhX#%04hX#%s"`.
These helpers model the `%0nX` conversions at the character-list level.
-/

/-- Uppercase hex digit, as produced by `%X`. -/
def hexDigitU (n : Nat) : Char :=
  if n < 10 then Char.ofNat (48 + n) else Char.ofNat (55 + n)

/-- Lowercase hex digit, as produced by `%x` (used in object paths). -/
def hexDigitL (n : Nat) : Char :=
  if n < 10 then Char.ofNat (48 + n) else Char.ofNat (87 + n)

/-- `%04X` of a `uint16_t` value. -/
def hex4U (n : Nat) : List Char :=
  [hexDigitU (n / 4096 % 16), hexDigitU (n / 256 % 16),
   hexDigitU (n / 16 % 16), hexDigitU (n % 16)]

/-- `%02X` of a `uint8_t` value. -/
def hex2U (n : Nat) : List Char :=
  [hexDigitU (n / 16 % 16), hexDigitU (n % 16)]

/-- `%04x` of a `uint16_t` value (object-path suffix). -/
def hex4L (n : Nat) : List Char :=
  [hexDigitL (n / 4096 % 16), hexDigitL (n / 256 % 16),
   hexDigitL (n / 16 % 16), hexDigitL (n % 16)]

/-- Is `c` a hexadecimal digit accepted by `%X` in `sscanf`? -/
def isHexDigitCh (c : Char) : Bool :=
  (48 ≤ c.toNat && c.toNat ≤ 57) ||
  (65 ≤ c.toNat && c.toNat ≤ 70) ||
  (97 ≤ c.toNat && c.toNat ≤ 102)

/-- C `isspace`: the characters `sscanf` treats as whitespace
(space, \\t, \\n, \\v, \\f, \\r). -/
def isSpaceCh (c : Char) : Bool :=
  c.toNat = 32 || (9 <= c.toNat && c.toNat <= 13)

/-- Numeric value of a hex digit character. -/
def hexVal (c : Char) : Nat :=
  if c.toNat ≤ 57 then c.toNat - 48
  else if c.toNat ≤ 70 then c.toNat - 55
  else c.toNat - 87

/-- Take at most `n` leading hex digits (the field-width behaviour of
`%0nX` in `sscanf`). -/
def takeHex : Nat → List Char → List Char
  | 0, _ => []
  | _, [] => []
  | n + 1, c :: cs => if isHexDigitCh c then c :: takeHex n cs else []

/-- Parse a hex field of width `n`: skip leading whitespace (as `sscanf`
conversions do), then at least one digit, at most `n`.  Returns the value
and the remaining input.  (The `0x`-prefix and sign forms accepted by
`strtoul` never occur in this store format and are not modelled.) -/
def parseHexN (n : Nat) (cs : List Char) : Option (Nat × List Char) :=
  let cs1 := cs.dropWhile isSpaceCh
  let ds := takeHex n cs1
  if ds = [] then none
  else some (ds.foldl (fun acc d => 16 * acc + hexVal d) 0, cs1.drop ds.length)

/-- Match one literal character (a literal in the `sscanf` format). -/
def expectCh (c : Char) : List Char → Option (List Char)
  | [] => none
  | d :: ds => if d = c then some ds else none

/-! ## Data model (structs in client.c) -/

/-- `struct descriptor` of client.c. -/
structure Descriptor where
  name : Option String := none
  desc : Option String := none
  cli_conf_hndl : Nat := 0
  cli_conf : Nat := 0
  fmt : Option (List Nat) := none
deriving Repr, DecidableEq

/-- `struct characteristic` of client.c.  `handle` is the value handle,
`end_handle` is the C field `end` (a Lean keyword), `perm` the properties
byte, `type` the UUID string, `msg` the pending D-Bus reply token. -/
structure Characteristic where
  handle : Nat := 0
  end_handle : Nat := 0
  perm : Nat := 0
  type : String := ""
  path : String := ""
  msg : Option Nat := none
  value : Option (List Nat) := none
  desc : Descriptor := {}
deriving Repr, DecidableEq

/-- `struct watcher` of client.c (the D-Bus sender name and object path). -/
structure Watcher where
  name : String
  path : String
deriving Repr, DecidableEq

/-- `struct primary` of client.c, with the `struct att_primary` fields
(`att->start`, `att->end`, `att->uuid`) flattened in.  `discovery_msg` is
the pending `DiscoverCharacteristics` reply token; `discovery_timer` is
the watchdog source id (`0` = disarmed). -/
structure Primary where
  att_start : Nat := 0
  att_end : Nat := 0
  att_uuid : String := ""
  path : String := ""
  discovery_msg : Option Nat := none
  discovery_timer : Nat := 0
  chars : List Characteristic := []
  watchers : List Watcher := []
deriving Repr, DecidableEq

/-- `struct att_char` (gatt.h): one entry of a Discover-All-Characteristics
response.  `handle` is the declaration handle, `value_handle` the value
handle. -/
structure AttChar where
  uuid : String
  handle : Nat
  properties : Nat
  value_handle : Nat
deriving Repr, DecidableEq

/-- A D-Bus message sent back to a caller. -/
inductive Reply
  | method_return (paths : List String)
  | failed (msg : String)
  | att_failed (code : Nat)
  | invalid_args
  | not_authorized
deriving Repr, DecidableEq

/-- Value handles of a characteristic list. -/
def char_handles (cs : List Characteristic) : List Nat := cs.map (·.handle)

/-- `g_slist_find_custom(chars, handle, characteristic_handle_cmp)`:
first characteristic whose value handle equals `h`
(`characteristic_handle_cmp` returns `chr->handle - handle`). -/
def find_char (cs : List Characteristic) (h : Nat) : Option Characteristic :=
  cs.find? (fun c => c.handle == h)

/-! ## Cache persistence (characteristic_list_to_string /
string_to_characteristic_list) -/

/-- One `"%04X#%02X#%04X#%s "` record of `characteristic_list_to_string`
(including the trailing space).  `chr->type` is at most
`MAX_LEN_UUID_STR = 37` characters, so the 64-byte `chr_str` buffer never
truncates. -/
def char_record (chr : Characteristic) : List Char :=
  hex4U chr.handle ++ ('#' :: (hex2U chr.perm ++ ('#' :: (hex4U chr.end_handle
    ++ ('#' :: (chr.type.toList ++ [' ']))))))

/-- `characteristic_list_to_string`: concatenation of the records. -/
def characteristic_list_to_string (chars : List Characteristic) : String :=
  String.mk (chars.map char_record).flatten

/-- `g_strsplit(str, " ", 0)` on a non-empty string: split at every
space, keeping empty tokens. -/
def splitSp : List Char → List (List Char)
  | [] => [[]]
  | c :: cs =>
    if c = ' ' then [] :: splitSp cs
    else
      match splitSp cs with
      | t :: ts => (c :: t) :: ts
      | [] => [[c]]

/-- The characteristic built for a parsed cache record or a discovered
`att_char` entry: path `"%s/characteristic%04x"`, remaining fields zeroed
by `g_new0`. -/
def mk_characteristic (prim_path : String) (h p e : Nat) (ty : String) :
    Characteristic :=
  { handle := h, perm := p, end_handle := e, type := ty,
    path := prim_path ++ "/characteristic" ++ String.mk (hex4L h) }

/-- `sscanf(token, "%04hX#%02hhX#%04hX#%s", ...)` on one token; `NULL`
(`ret < 4`) becomes `none`.  `%s` skips leading whitespace, then takes the
following run of non-whitespace characters, which must be non-empty. -/
def parse_char_record (prim_path : String) (tok : List Char) :
    Option Characteristic :=
  match parseHexN 4 tok with
  | none => none
  | some (h, r1) =>
    match expectCh '#' r1 with
    | none => none
    | some r2 =>
      match parseHexN 2 r2 with
      | none => none
      | some (p, r3) =>
        match expectCh '#' r3 with
        | none => none
        | some r4 =>
          match parseHexN 4 r4 with
          | none => none
          | some (e, r5) =>
            match expectCh '#' r5 with
            | none => none
            | some r6 =>
              let ty := (r6.dropWhile isSpaceCh).takeWhile
                (fun c => !isSpaceCh c)
              if ty = [] then none
              else some (mk_characteristic prim_path h p e (String.mk ty))

/-- `string_to_characteristic_list`: split on spaces and keep the tokens
that `sscanf` parses completely.  (`g_strsplit` of the empty string is the
empty vector.) -/
def string_to_characteristic_list (prim_path : String) (str : String) :
    List Characteristic :=
  if str.toList = [] then []
  else (splitSp str.toList).filterMap (parse_char_record prim_path)

/-- The persisted tuple of a characteristic. -/
def char_tuple (c : Characteristic) : Nat × Nat × Nat × String :=
  (c.handle, c.perm, c.end_handle, c.type)

/-- Well-formedness used by the cache round-trip: fields in range for
their C types, and a UUID that is non-empty, free of whitespace (which
would break both the token split and the `%s` scan) and fits `chr->type`
(37 characters). -/
def well_formed_char (c : Characteristic) : Prop :=
  c.handle < 65536 ∧ c.perm < 256 ∧ c.end_handle < 65536 ∧
  c.type ≠ "" ∧ (∀ ch ∈ c.type.toList, isSpaceCh ch = false) ∧
  c.type.length ≤ 37

instance (c : Characteristic) : Decidable (well_formed_char c) := by
  unfold well_formed_char; infer_instance

example :
    characteristic_list_to_string
      [{ handle := 0x12, perm := 0x0A, end_handle := 0x15, type := "2a00" }] =
    "0012#0A#0015#2a00 " := by decide

example :
    (string_to_characteristic_list "/p" "0012#0A#0015#2a00 ").map char_tuple =
    [(0x12, 0x0A, 0x15, "2a00")] := by decide

/-! ## Discovery engine: char_discovered_cb -/

/-- The characteristic created for a discovered entry: properties, value
handle, path and UUID copied from the `att_char`; `end` left `0` until
patched (`g_new0`). -/
def new_characteristic (prim_path : String) (a : AttChar) : Characteristic :=
  mk_characteristic prim_path a.value_handle a.properties 0 a.uuid

/-- Write `e` through `previous_end`, which (when set) always points at
the `end` field of the most recently appended characteristic, i.e. the
last element of the list. -/
def patchLast (e : Nat) : List Characteristic → List Characteristic
  | [] => []
  | [c] => [{ c with end_handle := e }]
  | c :: c2 :: cs => c :: patchLast e (c2 :: cs)

/-- The characteristic loop of `char_discovered_cb`: for each discovered
entry, skip it if its value handle is already present; otherwise patch the
previous new characteristic's `end` to this entry's declaration handle and
append a new characteristic.  `pending` models `previous_end != NULL`. -/
def discover_loop (prim_path : String) :
    List AttChar → List Characteristic → Bool → List Characteristic × Bool
  | [], chars, pending => (chars, pending)
  | a :: rest, chars, pending =>
    if (find_char chars a.value_handle).isSome then
      discover_loop prim_path rest chars pending
    else
      let chars1 := if pending then patchLast a.handle chars else chars
      discover_loop prim_path rest
        (chars1 ++ [new_characteristic prim_path a]) true

/-- The resulting `prim->chars` of a successful `char_discovered_cb`: run
the loop, then patch the final `previous_end` with `att->end`. -/
def char_discovered_chars (prim_path : String) (att_end : Nat)
    (chars0 : List Characteristic) (discovered : List AttChar) :
    List Characteristic :=
  match discover_loop prim_path discovered chars0 false with
  | (cs, true) => patchLast att_end cs
  | (cs, false) => cs

/-- Reference shape of the characteristics created from `c` (already
created from the first new entry) followed by the entries `ds`: each one's
`end` is patched to the next entry's declaration handle. -/
def chain_new (prim_path : String) (c : Characteristic) :
    List AttChar → List Characteristic
  | [] => [c]
  | a :: rest =>
    { c with end_handle := a.handle } ::
      chain_new prim_path (new_characteristic prim_path a) rest

/-- Observable outcome of one `char_discovered_cb` invocation (together
with the `update_all_chars` it calls on success): the new primary state,
the reply sent (none on success — the reply is deferred to the reads), the
`store_characteristics` payload, the `gatt_find_info` ranges and
`gatt_read_char` handles issued, whether the watchdog was armed, and how
many `g_attrib_unref` calls ran. -/
structure DiscoveryOutcome where
  prim : Primary
  reply : Option Reply
  store_write : Option String
  find_info_reqs : List (Nat × Nat)
  read_reqs : List Nat
  timer_armed : Bool
  unrefs : Nat
deriving Repr, DecidableEq

/-- `char_discovered_cb` (with `update_all_chars` inlined on the success
path).  On failure: reply `att_ecode2str(status)` through the pending
discovery message (which is not cleared) and release one reference.  On
success: rebuild `prim->chars`, persist them, issue one
`gatt_find_info(handle+1, end)` and one `gatt_read_char(handle)` per
characteristic (each taking its own reference, released by its own
callback), and arm the watchdog — even when the list is empty. -/
def char_discovered_cb (prim : Primary) (status : Nat)
    (discovered : List AttChar) : DiscoveryOutcome :=
  if status ≠ 0 then
    { prim := prim, reply := some (Reply.att_failed status),
      store_write := none, find_info_reqs := [], read_reqs := [],
      timer_armed := false, unrefs := 1 }
  else
    let chars := char_discovered_chars prim.path prim.att_end prim.chars
        discovered
    { prim := { prim with chars := chars, discovery_timer := 1 },
      reply := none,
      store_write := some (characteristic_list_to_string chars),
      find_info_reqs := chars.map (fun c => (c.handle + 1, c.end_handle)),
      read_reqs := chars.map (·.handle),
      timer_armed := true, unrefs := 0 }

/-! ## stop_discovery / stop_discovery_timeout -/

/-- `stop_discovery`: clear the watchdog id; if a discovery reply is
pending, fail it with the timeout message, clear it, and release one
transport reference.  Returns the new primary, the reply sent, and the
number of `g_attrib_unref` calls. -/
def stop_discovery (prim : Primary) : Primary × Option Reply × Nat :=
  match prim.discovery_msg with
  | none => ({ prim with discovery_timer := 0 }, none, 0)
  | some _ =>
    ({ prim with discovery_timer := 0, discovery_msg := none },
     some (Reply.failed "Discover characteristic values timed out"), 1)

/-! ## Notification / indication reception: events_handler -/

/-- `att_get_u16` on a little-endian pair of bytes. -/
def att_get_u16 (lo hi : Nat) : Nat := lo + 256 * hi

/-- The primary/characteristic lookup loop of `events_handler`: the first
primary whose list contains the handle, with that characteristic. -/
def find_prim_char : List Primary → Nat → Option (Primary × Characteristic)
  | [], _ => none
  | p :: ps, h =>
    match find_char p.chars h with
    | some c => some (p, c)
    | none => find_prim_char ps h

/-- `characteristic_set_value` (allocation failure not modelled). -/
def set_char_value (v : List Nat) (c : Characteristic) : Characteristic :=
  { c with value := some v }

/-- Update the first characteristic with value handle `h` in place. -/
def update_char_in_list (h : Nat) (v : List Nat) :
    List Characteristic → List Characteristic
  | [] => []
  | c :: cs =>
    if c.handle == h then set_char_value v c :: cs
    else c :: update_char_in_list h v cs

/-- Update the matched characteristic inside the first primary that
contains `h`. -/
def update_prims (h : Nat) (v : List Nat) : List Primary → List Primary
  | [] => []
  | p :: ps =>
    if (find_char p.chars h).isSome then
      { p with chars := update_char_in_list h v p.chars } :: ps
    else p :: update_prims h v ps

/-- One `update_watchers` invocation: a `ValueChanged` call to the watcher
carrying the characteristic path and its (just updated) value. -/
structure Dispatch where
  watcher_name : String
  watcher_path : String
  char_path : String
  value : List Nat
deriving Repr, DecidableEq

def update_watchers (chr : Characteristic) (w : Watcher) : Dispatch :=
  { watcher_name := w.name, watcher_path := w.path,
    char_path := chr.path, value := chr.value.getD [] }

/-- Observable outcome of `events_handler`: new primary list, number of
Handle Value Confirmations sent, watcher dispatches performed. -/
structure EventsResult where
  prims : List Primary
  confirmations : Nat
  dispatches : List Dispatch
deriving Repr, DecidableEq

/-- `events_handler`.  PDUs shorter than 3 bytes are dropped; the handle
is looked up before the opcode switch, so an unknown handle returns with
nothing sent; `ATT_OP_HANDLE_IND` sends a confirmation and falls through
into the `ATT_OP_HANDLE_NOTIFY` case, which stores the payload after the
handle and dispatches to the enclosing primary's watchers. -/
def events_handler (prims : List Primary) (pdu : List Nat) : EventsResult :=
  match pdu with
  | op :: b1 :: b2 :: rest =>
    (match find_prim_char prims (att_get_u16 b1 b2) with
     | none => { prims := prims, confirmations := 0, dispatches := [] }
     | some (prim, chr) =>
       if op = ATT_OP_HANDLE_IND ∨ op = ATT_OP_HANDLE_NOTIFY then
         { prims := update_prims (att_get_u16 b1 b2) rest prims,
           confirmations := if op = ATT_OP_HANDLE_IND then 1 else 0,
           dispatches :=
             prim.watchers.map (update_watchers (set_char_value rest chr)) }
       else { prims := prims, confirmations := 0, dispatches := [] })
  | _ => { prims := prims, confirmations := 0, dispatches := [] }

/-! ## Read/write escalation: update_char_value along the UpdateValue path
(`prim->discovery_msg == NULL`, `chr->msg` set) and gatt_write_char_resp
along the SetProperty("Value") path -/

/-- Terminal outcome seen by the D-Bus caller of `UpdateValue`. -/
inductive ValueReply
  | pending
  | success
  | failed (msg : String)
deriving Repr, DecidableEq

/-- Iterated `update_char_value`: `responses` are the successive
`(status, pdu)` completions of the issued `gatt_read_char` requests,
`io_set` the successive outcomes of `bt_io_set(..., BT_IO_SEC_HIGH, ...)`.
Returns how many times the read was reissued, the reply, and the stored
value.  Status `0` stores `pdu+1` and replies success; `INSUFF_ENC` or
`AUTHENTICATION` raises security and reissues whenever `bt_io_set`
succeeds, otherwise falls through to the failure reply; other statuses
fail immediately. -/
def update_char_value_run :
    List (Nat × List Nat) → List Bool → Nat × ValueReply × Option (List Nat)
  | [], _ => (0, ValueReply.pending, none)
  | (status, pdu) :: rest, io_set =>
    if status = 0 then (0, ValueReply.success, some (pdu.drop 1))
    else if status = ATT_ECODE_INSUFF_ENC ∨
            status = ATT_ECODE_AUTHENTICATION then
      match io_set with
      | true :: io2 =>
        let r := update_char_value_run rest io2
        (r.1 + 1, r.2)
      | _ =>
        (0, ValueReply.failed "Update characteristic value failed", none)
    else (0, ValueReply.failed "Update characteristic value failed", none)

/-- Terminal outcome seen by the D-Bus caller of `SetProperty("Value")`. -/
inductive WriteReply
  | pending
  | success
  | invalid_args
  | no_reply
deriving Repr, DecidableEq

/-- Iterated `gatt_write_char_resp` along the `set_value` path
(`chr->msg` set): `statuses` are the successive completion statuses of the
issued `gatt_write_char` requests, `io_set` the successive `bt_io_set`
outcomes, `payload` the caller's byte array kept in the query data
(`current->value`/`current->len`, rewritten on every reissue).  Returns
the number of reissues, the caller-visible reply, and the stored value.
Status `0` stores the payload and replies success; `INSUFF_ENC` or
`AUTHENTICATION` raises security and reissues whenever `bt_io_set`
succeeds, but when it fails the else-if chain falls through to the final
`g_attrib_unref` and NO reply is sent (`WriteReply.no_reply`); any other
status replies `btd_error_invalid_args`. -/
def gatt_write_char_resp_run :
    List Nat → List Bool → List Nat → Nat × WriteReply × Option (List Nat)
  | [], _, _ => (0, WriteReply.pending, none)
  | status :: rest, io_set, payload =>
    if status = 0 then (0, WriteReply.success, some payload)
    else if status = ATT_ECODE_INSUFF_ENC ∨
            status = ATT_ECODE_AUTHENTICATION then
      match io_set with
      | true :: io2 =>
        let r := gatt_write_char_resp_run rest io2 payload
        (r.1 + 1, r.2)
      | _ => (0, WriteReply.no_reply, none)
    else (0, WriteReply.invalid_args, none)

/-! ## Transport reference counting -/

/-- Net effect of a successful `register_watcher` on the transport
refcount and the watcher count: `l2cap_connect` takes one reference, the
handlers are (re)registered, the watcher is appended — and then
`g_attrib_unref(prim->gatt->attrib)` runs before returning the reply, so
the reference the new watcher was supposed to hold is dropped
immediately. -/
def register_watcher_refs (refcount watchers : Nat) : Nat × Nat :=
  (refcount + 1 - 1, watchers + 1)

/-- `watcher_exit`: the watcher is removed and `g_attrib_unref` runs. -/
def watcher_exit_refs (refcount watchers : Nat) : Nat × Nat :=
  (refcount - 1, watchers - 1)

/-- Number of `g_attrib_unref` calls performed by `attrib_disconnect`:
one inside `stop_discovery` for every primary with a pending discovery,
plus the unconditional one at the end. -/
def attrib_disconnect_unrefs (prims : List Primary) : Nat :=
  (prims.map (fun p => (stop_discovery p).2.2)).sum + 1

/-! ## load_characteristics -/

/-- `load_characteristics` for one primary: a no-op when characteristics
are already loaded; otherwise consult the store (`cache` models
`read_device_characteristics`, `none` = `NULL`), parse, and install the
parsed list only when it is non-empty.  Returns the new primary and
whether the store was consulted. -/
def load_characteristics (prim : Primary) (cache : Option String) :
    Primary × Bool :=
  if prim.chars ≠ [] then (prim, false)
  else
    match cache with
    | none => (prim, true)
    | some str =>
      let chrs_list := string_to_characteristic_list prim.path str
      if chrs_list = [] then (prim, true)
      else ({ prim with chars := chrs_list }, true)

/-! ## Claim C9 -/

/-- Claim C9: when the discovery watchdog fires while a discovery reply is
pending, the caller receives the failure "Discover characteristic values
timed out", the pending discovery context (reply token and timer) is
cleared, and everything else in the primary — the characteristic list with
all its populated values and descriptors, and the watchers — is left
unchanged (the result differs from the input only in `discovery_msg` and
`discovery_timer`). -/
theorem c9_stop_discovery (prim : Primary) (m : Nat)
    (h : prim.discovery_msg = some m) :
    stop_discovery prim =
      ({ prim with discovery_timer := 0, discovery_msg := none },
       some (Reply.failed "Discover characteristic values timed out"), 1) := by
  simp [stop_discovery, h]

/-- Witness for C9 at a primary with a pending discovery and populated
characteristic state. -/
theorem c9_stop_discovery_witness :
    stop_discovery
      { path := "/p", discovery_msg := some 7, discovery_timer := 4,
        att_start := 16, att_end := 21,
        chars := [{ handle := 18, end_handle := 21, perm := 10,
                    type := "2a00", value := some [65, 66],
                    desc := { desc := some "Name" } }],
        watchers := [{ name := "w", path := "/w" }] } =
      ({ path := "/p", discovery_msg := none, discovery_timer := 0,
         att_start := 16, att_end := 21,
         chars := [{ handle := 18, end_handle := 21, perm := 10,
                     type := "2a00", value := some [65, 66],
                     desc := { desc := some "Name" } }],
         watchers := [{ name := "w", path := "/w" }] },
       some (Reply.failed "Discover characteristic values timed out"), 1) :=
  c9_stop_discovery _ 7 rfl

/-! ## Claim C10 -/

/-- Claim C10: `load_characteristics` is a no-op when the primary's
characteristic list is already non-empty (and then the store is not even
consulted), and a store read that returns nothing, or whose payload parses
to no well-formed entry, leaves the primary unchanged. -/
theorem c10_load_characteristics (prim : Primary) (cache : Option String) :
    (prim.chars ≠ [] → load_characteristics prim cache = (prim, false)) ∧
    (prim.chars = [] → load_characteristics prim none = (prim, true)) ∧
    (∀ s : String, prim.chars = [] →
      string_to_characteristic_list prim.path s = [] →
      load_characteristics prim (some s) = (prim, true)) := by
  refine ⟨fun h => ?_, fun h => ?_, fun s h hs => ?_⟩
  · simp [load_characteristics, h]
  · simp [load_characteristics, h]
  · simp [load_characteristics, h, hs]

/-- Witness for C10: already-loaded primary with a valid cache string
(untouched, store not consulted); empty primary with no stored string;
empty primary with an unparseable stored string. -/
theorem c10_load_characteristics_witness :
    (load_characteristics { path := "/p", chars := [{ handle := 18 }] }
        (some "0015#0A#0018#2a00 ") =
      ({ path := "/p", chars := [{ handle := 18 }] }, false)) ∧
    (load_characteristics { path := "/p" } none = ({ path := "/p" }, true)) ∧
    (load_characteristics { path := "/p" } (some "junk") =
      ({ path := "/p" }, true)) :=
  ⟨(c10_load_characteristics _ _).1 (by decide),
   (c10_load_characteristics { path := "/p" } none).2.1 rfl,
   (c10_load_characteristics { path := "/p" } (some "junk")).2.2 "junk" rfl
     (by decide)⟩

/-! ## Claim C3 -/

/-- Claim C3 (code bug): the transport reference count does not track live
operations plus live watchers.  Scenario: refcount 1 held by one live
operation, no watchers.  `register_watcher` succeeds: it takes a reference
in `l2cap_connect` and then immediately releases it before returning, so
the refcount stays 1 although a live watcher now exists (the claim demands
1 op + 1 watcher = 2).  When the subscriber exits, `watcher_exit` unrefs a
reference the watcher never held, dropping the count to 0 under the still
live operation.  Independently, `attrib_disconnect` on a service with one
pending discovery (which holds exactly one reference) releases two
references: one in the `stop_discovery` fan-out and one unconditionally. -/
theorem c3_refcount_eval :
    register_watcher_refs 1 0 = (1, 1) ∧ (1 : Nat) ≠ 1 + 1 ∧
    watcher_exit_refs 1 1 = (0, 0) ∧ (0 : Nat) ≠ 1 ∧
    attrib_disconnect_unrefs [{ path := "/p", discovery_msg := some 3 }] = 2 ∧
    ¬ (2 ≤ 1) := by decide

/-! ## Claim C2 -/

/-- Claim C2 counterexample: a read that keeps failing with
`AUTHENTICATION (0x05)` while `bt_io_set` keeps succeeding is reissued at
every failure — after the second 0x05 failure the code issues a third
attempt (and a fourth after the third), and no failure is surfaced
(`ValueReply.pending`, three reissues), contradicting "reissues that same
request exactly once; ... the failure is surfaced to the caller and no
third attempt is issued". -/
theorem c2_counterexample :
    update_char_value_run [(5, []), (5, []), (5, [])] [true, true, true] =
      (3, ValueReply.pending, none) ∧ ¬ ((3 : Nat) ≤ 1) := by decide

/-- Unbounded retry: with `n` consecutive escalation-code failures and `n`
successful `bt_io_set` calls, the read is reissued `n` times and nothing
is surfaced. -/
theorem run_replicate_escalation (s : Nat)
    (hs : s = ATT_ECODE_INSUFF_ENC ∨ s = ATT_ECODE_AUTHENTICATION) :
    ∀ (n : Nat) (pdu : List Nat),
      update_char_value_run (List.replicate n (s, pdu))
        (List.replicate n true) = (n, ValueReply.pending, none) := by
  intro n
  induction n with
  | zero => intro pdu; rfl
  | succ k ih =>
    intro pdu
    have hs0 : ¬ s = 0 := by
      rcases hs with h | h <;> simp [h, ATT_ECODE_INSUFF_ENC,
        ATT_ECODE_AUTHENTICATION]
    simp [List.replicate_succ, update_char_value_run, hs0, hs, ih pdu]

/-- Unbounded retry on the write path, mirroring
`run_replicate_escalation`. -/
theorem write_run_replicate_escalation (s : Nat)
    (hs : s = ATT_ECODE_INSUFF_ENC ∨ s = ATT_ECODE_AUTHENTICATION) :
    ∀ (n : Nat) (payload : List Nat),
      gatt_write_char_resp_run (List.replicate n s)
        (List.replicate n true) payload = (n, WriteReply.pending, none) := by
  intro n
  induction n with
  | zero => intro payload; rfl
  | succ k ih =>
    intro payload
    have hs0 : ¬ s = 0 := by
      rcases hs with h | h <;> simp [h, ATT_ECODE_INSUFF_ENC,
        ATT_ECODE_AUTHENTICATION]
    simp [List.replicate_succ, gatt_write_char_resp_run, hs0, hs, ih payload]

/-- Claim C2 amended: on every read or write failure with `INSUFF_ENC
(0x0F)` or `AUTHENTICATION (0x05)` the client raises the security level to
HIGH and reissues the same request whenever that `bt_io_set` call
succeeds, with no limit on the number of reissues.  When the raise call
fails, the read path surfaces "Update characteristic value failed" but the
write path sends no reply at all; a successful read stores the response
payload and replies, a successful write stores the caller's payload and
replies, a read failure with any other code surfaces the same failure
message, and a write failure with any other code replies
invalid-arguments. -/
theorem c2_amended_escalation :
    (∀ (n : Nat) (pdu : List Nat),
      update_char_value_run (List.replicate n (ATT_ECODE_INSUFF_ENC, pdu))
        (List.replicate n true) = (n, ValueReply.pending, none)) ∧
    (∀ (n : Nat) (pdu : List Nat),
      update_char_value_run (List.replicate n (ATT_ECODE_AUTHENTICATION, pdu))
        (List.replicate n true) = (n, ValueReply.pending, none)) ∧
    (∀ (n : Nat) (payload : List Nat),
      gatt_write_char_resp_run (List.replicate n ATT_ECODE_INSUFF_ENC)
        (List.replicate n true) payload = (n, WriteReply.pending, none)) ∧
    (∀ (n : Nat) (payload : List Nat),
      gatt_write_char_resp_run (List.replicate n ATT_ECODE_AUTHENTICATION)
        (List.replicate n true) payload = (n, WriteReply.pending, none)) ∧
    (∀ (pdu : List Nat) (rest : List (Nat × List Nat)) (io : List Bool),
      update_char_value_run ((ATT_ECODE_AUTHENTICATION, pdu) :: rest)
        (false :: io) =
        (0, ValueReply.failed "Update characteristic value failed", none)) ∧
    (∀ (rest : List Nat) (io : List Bool) (payload : List Nat),
      gatt_write_char_resp_run (ATT_ECODE_AUTHENTICATION :: rest)
        (false :: io) payload = (0, WriteReply.no_reply, none)) ∧
    (∀ (pdu : List Nat) (rest : List (Nat × List Nat)) (io : List Bool),
      update_char_value_run ((0, pdu) :: rest) io =
        (0, ValueReply.success, some (pdu.drop 1))) ∧
    (∀ (rest : List Nat) (io : List Bool) (payload : List Nat),
      gatt_write_char_resp_run (0 :: rest) io payload =
        (0, WriteReply.success, some payload)) ∧
    (∀ (st : Nat) (pdu : List Nat) (rest : List (Nat × List Nat))
        (io : List Bool), ¬ st = 0 →
      ¬ (st = ATT_ECODE_INSUFF_ENC ∨ st = ATT_ECODE_AUTHENTICATION) →
      update_char_value_run ((st, pdu) :: rest) io =
        (0, ValueReply.failed "Update characteristic value failed", none)) ∧
    (∀ (st : Nat) (rest : List Nat) (io : List Bool) (payload : List Nat),
      ¬ st = 0 →
      ¬ (st = ATT_ECODE_INSUFF_ENC ∨ st = ATT_ECODE_AUTHENTICATION) →
      gatt_write_char_resp_run (st :: rest) io payload =
        (0, WriteReply.invalid_args, none)) := by
  refine ⟨run_replicate_escalation _ (Or.inl rfl),
          run_replicate_escalation _ (Or.inr rfl),
          write_run_replicate_escalation _ (Or.inl rfl),
          write_run_replicate_escalation _ (Or.inr rfl),
          ?_, ?_, ?_, ?_, ?_, ?_⟩
  · intro pdu rest io
    simp [update_char_value_run, ATT_ECODE_INSUFF_ENC,
      ATT_ECODE_AUTHENTICATION]
  · intro rest io payload
    simp [gatt_write_char_resp_run, ATT_ECODE_INSUFF_ENC,
      ATT_ECODE_AUTHENTICATION]
  · intro pdu rest io
    simp [update_char_value_run]
  · intro rest io payload
    simp [gatt_write_char_resp_run]
  · intro st pdu rest io h0 hesc
    simp [update_char_value_run, h0, hesc]
  · intro st rest io payload h0 hesc
    simp [gatt_write_char_resp_run, h0, hesc]

/-- Witness for the amended C2 at the other-status conjuncts (the only
ones with hypotheses), at concrete status 0x08. -/
theorem c2_amended_escalation_witness :
    update_char_value_run [(8, [])] [] =
      (0, ValueReply.failed "Update characteristic value failed", none) ∧
    gatt_write_char_resp_run [8] [] [119] =
      (0, WriteReply.invalid_args, none) :=
  ⟨c2_amended_escalation.2.2.2.2.2.2.2.2.1 8 [] [] [] (by decide) (by decide),
   c2_amended_escalation.2.2.2.2.2.2.2.2.2 8 [] [] [119] (by decide)
     (by decide)⟩

/-! ## Claim C4 -/

/-- The state used by the C4 counterexample and witness: one primary with
one characteristic at value handle 0x0012 and one watcher. -/
def c4_prims : List Primary :=
  [{ path := "/p",
     chars := [{ handle := 18, path := "/p/characteristic0012" }],
     watchers := [{ name := "w", path := "/w" }] }]

/-- Claim C4 counterexample: an Indication (0x1D) for handle 0xFFFF, which
matches no characteristic, is dropped — but no 0x1E Confirmation is sent
(`confirmations = 0`), contradicting "for an Indication the 0x1E
Confirmation is still sent": the handle lookup in `events_handler` returns
before the `ATT_OP_HANDLE_IND` case that sends the confirmation. -/
theorem c4_counterexample :
    events_handler c4_prims [0x1D, 0xFF, 0xFF, 0x00] =
      { prims := c4_prims, confirmations := 0, dispatches := [] } ∧
    (events_handler c4_prims [0x1D, 0xFF, 0xFF, 0x00]).confirmations ≠ 1 := by
  decide

/-- Claim C4 amended: when a Handle Value Notification or Indication (or
any event PDU of length ≥ 3) arrives whose handle matches no known
characteristic's value handle, the PDU is dropped with no state change, no
error to the caller, and no Confirmation is sent — not even for an
Indication. -/
theorem c4_unknown_handle_drop (prims : List Primary) (op b1 b2 : Nat)
    (rest : List Nat)
    (h : find_prim_char prims (att_get_u16 b1 b2) = none) :
    events_handler prims (op :: b1 :: b2 :: rest) =
      { prims := prims, confirmations := 0, dispatches := [] } := by
  simp [events_handler, h]

/-- Witness for the amended C4 at the concrete scenario
`0x1B 0xFF 0xFF 0x00` (and the lookup failure it needs). -/
theorem c4_unknown_handle_drop_witness :
    find_prim_char c4_prims (att_get_u16 0xFF 0xFF) = none ∧
    events_handler c4_prims (0x1B :: 0xFF :: 0xFF :: [0x00]) =
      { prims := c4_prims, confirmations := 0, dispatches := [] } :=
  ⟨by decide, c4_unknown_handle_drop c4_prims 0x1B 0xFF 0xFF [0x00] (by decide)⟩

/-! ## Claim C6 -/

/-- The primary used by the C6 counterexample and witness: no cached
characteristics, a pending discovery reply. -/
def c6_prim : Primary :=
  { path := "/p", att_start := 1, att_end := 11, discovery_msg := some 0 }

/-- Claim C6 counterexample: a successful Discover-All-Characteristics
response with an empty list on a primary with no cached characteristics
does NOT complete the procedure: no reply is sent (in particular not the
claimed successful empty reply), the discovery stays pending, and the
watchdog is armed instead. -/
theorem c6_counterexample :
    (char_discovered_cb c6_prim 0 []).reply = none ∧
    (char_discovered_cb c6_prim 0 []).reply ≠ some (Reply.method_return []) ∧
    (char_discovered_cb c6_prim 0 []).prim.discovery_msg = some 0 ∧
    (char_discovered_cb c6_prim 0 []).timer_armed = true := by decide

/-- Claim C6 amended: if the Discover All Characteristics step succeeds
with an empty list (and the primary has no cached characteristics), the
procedure sends no reply at that point: it persists the empty list, issues
no per-characteristic requests, arms the discovery watchdog and leaves the
discovery pending; the pending reply is completed later by the watchdog
with the "Discover characteristic values timed out" failure. -/
theorem c6_empty_discovery (prim : Primary) (m : Nat)
    (h0 : prim.chars = []) (hm : prim.discovery_msg = some m) :
    char_discovered_cb prim 0 [] =
      { prim := { prim with discovery_timer := 1 },
        reply := none, store_write := some "",
        find_info_reqs := [], read_reqs := [],
        timer_armed := true, unrefs := 0 } ∧
    (stop_discovery (char_discovered_cb prim 0 []).prim).2.1 =
      some (Reply.failed "Discover characteristic values timed out") := by
  have hchars : char_discovered_chars prim.path prim.att_end [] [] = [] := by
    simp [char_discovered_chars, discover_loop]
  have hempty : characteristic_list_to_string [] = "" := rfl
  constructor
  · simp [char_discovered_cb, hchars, h0, hempty]
  · simp [char_discovered_cb, hchars, h0, hempty, stop_discovery, hm]

/-- Witness for the amended C6 at the concrete pending primary. -/
theorem c6_empty_discovery_witness :
    char_discovered_cb c6_prim 0 [] =
      { prim := { c6_prim with discovery_timer := 1 },
        reply := none, store_write := some "",
        find_info_reqs := [], read_reqs := [],
        timer_armed := true, unrefs := 0 } ∧
    (stop_discovery (char_discovered_cb c6_prim 0 []).prim).2.1 =
      some (Reply.failed "Discover characteristic values timed out") :=
  c6_empty_discovery c6_prim 0 rfl rfl

/-! ## Claim C5 -/

/-- Splitting lemma for `find_char` / `update_char_in_list`: the found
characteristic is the first match, and the update touches exactly it. -/
theorem update_char_in_list_spec (v : List Nat) :
    ∀ (cs : List Characteristic) (h : Nat) (c : Characteristic),
      find_char cs h = some c →
      ∃ pre post, cs = pre ++ c :: post ∧
        update_char_in_list h v cs = pre ++ { c with value := some v } :: post
  | [], h, c => by intro hf; simp [find_char] at hf
  | d :: ds, h, c => by
    intro hf
    by_cases hd : d.handle = h
    · have : d = c := by
        simpa [find_char, List.find?_cons, hd] using hf
      subst this
      exact ⟨[], ds, rfl, by simp [update_char_in_list, hd, set_char_value]⟩
    · have hf2 : find_char ds h = some c := by
        simpa [find_char, List.find?_cons, hd] using hf
      obtain ⟨pre, post, hcs, hupd⟩ := update_char_in_list_spec v ds h c hf2
      exact ⟨d :: pre, post, by simp [hcs],
        by simp [update_char_in_list, hd, hupd]⟩

/-- Splitting lemma for `find_prim_char` / `update_prims`: the found
primary is the first one containing the handle, it holds the found
characteristic, and the update touches exactly that primary. -/
theorem update_prims_spec (v : List Nat) :
    ∀ (prims : List Primary) (h : Nat) (p : Primary) (c : Characteristic),
      find_prim_char prims h = some (p, c) →
      find_char p.chars h = some c ∧
      ∃ pre post, prims = pre ++ p :: post ∧
        update_prims h v prims =
          pre ++ { p with chars := update_char_in_list h v p.chars } :: post
  | [], h, p, c => by intro hf; simp [find_prim_char] at hf
  | q :: qs, h, p, c => by
    intro hf
    cases hq : find_char q.chars h with
    | some c2 =>
      have hpq : q = p ∧ c2 = c := by
        have := hf
        simp [find_prim_char, hq] at this
        exact ⟨this.1, this.2⟩
      obtain ⟨hqp, hc2⟩ := hpq
      subst hqp; subst hc2
      exact ⟨hq, [], qs, rfl, by simp [update_prims, hq]⟩
    | none =>
      have hf2 : find_prim_char qs h = some (p, c) := by
        simpa [find_prim_char, hq] using hf
      obtain ⟨hfc, pre, post, hprims, hupd⟩ := update_prims_spec v qs h p c hf2
      exact ⟨hfc, q :: pre, post, by simp [hprims],
        by simp [update_prims, hq, hupd]⟩

/-- Claim C5: a Handle Value Indication (0x1D) of length ≥ 3 whose handle
matches a characteristic's value handle makes the client send exactly one
0x1E Confirmation, update that characteristic's value to the PDU bytes
after the handle, and dispatch `(characteristic_path, new_value_bytes)` to
every watcher of the enclosing primary; the two splitting conjuncts show
the state change touches exactly the matched characteristic of the matched
primary. -/
theorem c5_indication_dispatch (prims : List Primary) (b1 b2 : Nat)
    (rest : List Nat) (prim : Primary) (chr : Characteristic)
    (hf : find_prim_char prims (att_get_u16 b1 b2) = some (prim, chr)) :
    events_handler prims (ATT_OP_HANDLE_IND :: b1 :: b2 :: rest) =
      { prims := update_prims (att_get_u16 b1 b2) rest prims,
        confirmations := 1,
        dispatches := prim.watchers.map (fun w =>
          { watcher_name := w.name, watcher_path := w.path,
            char_path := chr.path, value := rest }) } ∧
    (∃ pre post, prims = pre ++ prim :: post ∧
      update_prims (att_get_u16 b1 b2) rest prims =
        pre ++ { prim with
          chars := update_char_in_list (att_get_u16 b1 b2) rest prim.chars }
          :: post) ∧
    (∃ cpre cpost, prim.chars = cpre ++ chr :: cpost ∧
      update_char_in_list (att_get_u16 b1 b2) rest prim.chars =
        cpre ++ { chr with value := some rest } :: cpost) := by
  obtain ⟨hfc, pre, post, hprims, hupd⟩ :=
    update_prims_spec rest prims (att_get_u16 b1 b2) prim chr hf
  obtain ⟨cpre, cpost, hchars, hcupd⟩ :=
    update_char_in_list_spec rest prim.chars (att_get_u16 b1 b2) chr hfc
  refine ⟨?_, ⟨pre, post, hprims, hupd⟩, ⟨cpre, cpost, hchars, hcupd⟩⟩
  have hmap : update_watchers (set_char_value rest chr) = fun w =>
      ({ watcher_name := w.name, watcher_path := w.path,
         char_path := chr.path, value := rest } : Dispatch) := by
    funext w; rfl
  simp [events_handler, hf, hmap]

/-- The state used by the C5 witness: scenario 4 of the spec, one watcher,
indication `0x1D 0x12 0x00 0x77`. -/
def c5_chr : Characteristic :=
  { handle := 18, end_handle := 21, path := "/p/characteristic0012" }

def c5_prim : Primary :=
  { path := "/p", chars := [c5_chr], watchers := [{ name := "w", path := "/w" }] }

/-- Witness for C5 at the concrete indication scenario. -/
theorem c5_indication_dispatch_witness :
    find_prim_char [c5_prim] (att_get_u16 18 0) = some (c5_prim, c5_chr) ∧
    (events_handler [c5_prim] (ATT_OP_HANDLE_IND :: 18 :: 0 :: [119]) =
      { prims := update_prims (att_get_u16 18 0) [119] [c5_prim],
        confirmations := 1,
        dispatches := c5_prim.watchers.map (fun w =>
          { watcher_name := w.name, watcher_path := w.path,
            char_path := c5_chr.path, value := [119] }) } ∧
    (∃ pre post, [c5_prim] = pre ++ c5_prim :: post ∧
      update_prims (att_get_u16 18 0) [119] [c5_prim] =
        pre ++ { c5_prim with
          chars := update_char_in_list (att_get_u16 18 0) [119] c5_prim.chars }
          :: post) ∧
    (∃ cpre cpost, c5_prim.chars = cpre ++ c5_chr :: cpost ∧
      update_char_in_list (att_get_u16 18 0) [119] c5_prim.chars =
        cpre ++ { c5_chr with value := some [119] } :: cpost)) :=
  ⟨by decide, c5_indication_dispatch [c5_prim] 18 0 [119] c5_prim c5_chr
    (by decide)⟩

/-! ## Discovery-loop lemmas (for C1 and C8) -/

theorem find_char_isSome_iff (cs : List Characteristic) (h : Nat) :
    (find_char cs h).isSome = true ↔ h ∈ char_handles cs := by
  simp only [find_char, List.find?_isSome, char_handles, List.mem_map,
    beq_iff_eq]

theorem patchLast_cons_of_ne_nil (e : Nat) (x : Characteristic)
    (l : List Characteristic) (h : l ≠ []) :
    patchLast e (x :: l) = x :: patchLast e l := by
  cases l with
  | nil => exact absurd rfl h
  | cons y ys => rfl

theorem patchLast_append_left (e : Nat) (cs t : List Characteristic)
    (h : t ≠ []) : patchLast e (cs ++ t) = cs ++ patchLast e t := by
  induction cs with
  | nil => rfl
  | cons d ds ih =>
    have hne : ds ++ t ≠ [] := by
      intro hc
      exact h (List.append_eq_nil.mp hc).2
    simp only [List.cons_append]
    rw [patchLast_cons_of_ne_nil e d (ds ++ t) hne, ih]

theorem patchLast_map_handle (e : Nat) :
    ∀ l : List Characteristic,
      (patchLast e l).map (·.handle) = l.map (·.handle)
  | [] => rfl
  | [_] => rfl
  | c :: c2 :: cs => by
    have ih := patchLast_map_handle e (c2 :: cs)
    simp only [patchLast, List.map_cons] at ih ⊢
    rw [ih]

theorem char_handles_patchLast (e : Nat) (l : List Characteristic) :
    char_handles (patchLast e l) = char_handles l := by
  simp [char_handles, patchLast_map_handle]

theorem chain_new_ne_nil (p : String) (c : Characteristic) :
    ∀ ds : List AttChar, chain_new p c ds ≠ []
  | [] => by simp [chain_new]
  | _ :: _ => by simp [chain_new]

/-- Core loop lemma: once one characteristic has been created (it is the
last list element and `previous_end` points at it), processing entries
that are all new appends `chain_new` — each created characteristic's `end`
is patched to the NEXT entry's declaration handle. -/
theorem discover_loop_true (p : String) :
    ∀ (ds : List AttChar) (cs : List Characteristic) (c : Characteristic),
      (∀ a ∈ ds, a.value_handle ∉ char_handles (cs ++ [c])) →
      (ds.map (·.value_handle)).Nodup →
      discover_loop p ds (cs ++ [c]) true = (cs ++ chain_new p c ds, true)
  | [], cs, c => by
    intro _ _
    simp [discover_loop, chain_new]
  | a :: rest, cs, c => by
    intro hnew hnodup
    have hnot : a.value_handle ∉ char_handles (cs ++ [c]) :=
      hnew a (List.mem_cons_self a rest)
    have hfind : (find_char (cs ++ [c]) a.value_handle).isSome = false := by
      rw [Bool.eq_false_iff]
      intro hs
      exact hnot ((find_char_isSome_iff _ _).1 hs)
    have hpatch : patchLast a.handle (cs ++ [c]) =
        cs ++ [{ c with end_handle := a.handle }] :=
      patchLast_append_left a.handle cs [c] (by simp)
    have hvh : ∀ b ∈ rest, b.value_handle ≠ a.value_handle := by
      intro b hb he
      apply (List.nodup_cons.mp hnodup).1
      exact List.mem_map.mpr ⟨b, hb, he⟩
    have hmem : ∀ b ∈ rest, b.value_handle ∉
        char_handles ((cs ++ [{ c with end_handle := a.handle }]) ++
          [new_characteristic p a]) := by
      intro b hb
      have h1 := hnew b (List.mem_cons_of_mem a hb)
      simp only [char_handles, List.map_append, List.map_cons, List.map_nil,
        List.mem_append, List.mem_singleton, new_characteristic,
        mk_characteristic] at h1 ⊢
      intro hcase
      rcases hcase with hcase | hcase
      · exact h1 hcase
      · exact hvh b hb hcase
    have ih := discover_loop_true p rest
      (cs ++ [{ c with end_handle := a.handle }]) (new_characteristic p a)
      hmem (List.nodup_cons.mp hnodup).2
    simp only [discover_loop, hfind, Bool.false_eq_true, if_false, if_true,
      hpatch, chain_new]
    rw [List.append_assoc cs _ _] at ih
    simpa using ih

/-- The `end` handles of the created chain once the final `att->end` patch
has run: each entry's declaration handle shifted to the previous
characteristic, with `e` for the last. -/
theorem patchLast_chain_ends (p : String) (e : Nat) :
    ∀ (ds : List AttChar) (c : Characteristic),
      (patchLast e (chain_new p c ds)).map (·.end_handle) =
        ds.map (·.handle) ++ [e]
  | [], c => by simp [chain_new, patchLast]
  | a :: rest, c => by
    have ih := patchLast_chain_ends p e rest (new_characteristic p a)
    have hne := chain_new_ne_nil p (new_characteristic p a) rest
    simp only [chain_new,
      patchLast_cons_of_ne_nil e _ _ hne, List.map_cons, ih, List.map_cons,
      List.cons_append]

/-! ## Claim C1 -/

/-- Claim C1 counterexample: primary end 0x000B; discovery returns two
characteristics with declaration handles 0x0003 and 0x0006 and value
handles 0x0004 and 0x0007.  The code sets the first characteristic's
`end` to 6 — the next entry's declaration handle itself
(`*previous_end = current_chr->handle`, no `- 1`) — where the claim
demands declaration handle minus one, i.e. 5. -/
def c1a : AttChar :=
  { uuid := "2a00", handle := 3, properties := 10, value_handle := 4 }

def c1rest : List AttChar :=
  [{ uuid := "2a01", handle := 6, properties := 10, value_handle := 7 }]

def c1_ds : List AttChar := c1a :: c1rest

theorem c1_counterexample :
    (char_discovered_chars "/p" 11 [] c1_ds).map (·.end_handle) = [6, 11] ∧
    (char_discovered_chars "/p" 11 [] c1_ds).map (·.end_handle) ≠
      (c1_ds.drop 1).map (fun a => a.handle - 1) ++ [11] := by decide

/-- Claim C1 amended: after `char_discovered_cb` processes a non-empty
list of discovered characteristics that are all new (value handles not
already present, pairwise distinct), the pre-existing characteristics are
untouched and, among the newly created ones, each `end_handle` equals the
NEXT discovered entry's declaration handle (with no minus one), the last
one being the primary's `end` handle. -/
theorem c1_end_handle_chain (p : String) (e : Nat)
    (cs0 : List Characteristic) (a : AttChar) (rest : List AttChar)
    (hnew : ∀ b ∈ a :: rest, b.value_handle ∉ char_handles cs0)
    (hnodup : ((a :: rest).map (·.value_handle)).Nodup) :
    (char_discovered_chars p e cs0 (a :: rest)).take cs0.length = cs0 ∧
    ((char_discovered_chars p e cs0 (a :: rest)).drop cs0.length).map
        (·.end_handle) = rest.map (·.handle) ++ [e] := by
  have hnot : a.value_handle ∉ char_handles cs0 :=
    hnew a (List.mem_cons_self a rest)
  have hfind : (find_char cs0 a.value_handle).isSome = false := by
    rw [Bool.eq_false_iff]
    intro hs
    exact hnot ((find_char_isSome_iff _ _).1 hs)
  have hvh : ∀ b ∈ rest, b.value_handle ≠ a.value_handle := by
    intro b hb he
    exact (List.nodup_cons.mp hnodup).1 (List.mem_map.mpr ⟨b, hb, he⟩)
  have hmem : ∀ b ∈ rest, b.value_handle ∉
      char_handles (cs0 ++ [new_characteristic p a]) := by
    intro b hb
    have h1 := hnew b (List.mem_cons_of_mem a hb)
    simp only [char_handles, List.map_append, List.map_cons, List.map_nil,
      List.mem_append, List.mem_singleton, new_characteristic,
      mk_characteristic] at h1 ⊢
    intro hcase
    rcases hcase with hcase | hcase
    · exact h1 hcase
    · exact hvh b hb hcase
  have hloop : discover_loop p (a :: rest) cs0 false =
      (cs0 ++ chain_new p (new_characteristic p a) rest, true) := by
    have ih := discover_loop_true p rest cs0 (new_characteristic p a)
      hmem (List.nodup_cons.mp hnodup).2
    simpa [discover_loop, hfind] using ih
  have hres : char_discovered_chars p e cs0 (a :: rest) =
      cs0 ++ patchLast e (chain_new p (new_characteristic p a) rest) := by
    have hstep : char_discovered_chars p e cs0 (a :: rest) =
        patchLast e (cs0 ++ chain_new p (new_characteristic p a) rest) := by
      unfold char_discovered_chars
      rw [hloop]
    rw [hstep, patchLast_append_left e cs0 _ (chain_new_ne_nil p _ rest)]
  rw [hres]
  exact ⟨List.take_left cs0 _,
    by rw [List.drop_left]; exact patchLast_chain_ends p e rest _⟩

/-- Witness for the amended C1 at the concrete two-entry discovery on an
empty primary. -/
theorem c1_end_handle_chain_witness :
    (char_discovered_chars "/p" 11 [] (c1a :: c1rest)).take 0 = [] ∧
    ((char_discovered_chars "/p" 11 [] (c1a :: c1rest)).drop 0).map
        (·.end_handle) = c1rest.map (·.handle) ++ [11] :=
  c1_end_handle_chain "/p" 11 [] c1a c1rest (by decide) (by decide)

/-! ## Claim C8 -/

/-- Every characteristic the loop appends carries a value handle that was
not yet in the list, so distinctness of value handles is preserved. -/
theorem discover_loop_nodup (p : String) :
    ∀ (ds : List AttChar) (cs : List Characteristic) (pending : Bool),
      (char_handles cs).Nodup →
      (char_handles (discover_loop p ds cs pending).1).Nodup
  | [], _, _ => fun h => h
  | a :: rest, cs, pending => by
    intro h
    by_cases hf : (find_char cs a.value_handle).isSome
    · simpa [discover_loop, hf] using discover_loop_nodup p rest cs pending h
    · have hnot : a.value_handle ∉ char_handles cs := fun hm =>
        hf ((find_char_isSome_iff _ _).2 hm)
      have hh : char_handles
          ((if pending then patchLast a.handle cs else cs) ++
            [new_characteristic p a]) =
          char_handles cs ++ [a.value_handle] := by
        cases pending <;>
          simp [char_handles, new_characteristic, mk_characteristic,
            patchLast_map_handle]
      have hnodup2 : (char_handles
          ((if pending then patchLast a.handle cs else cs) ++
            [new_characteristic p a])).Nodup := by
        rw [hh]
        simp [List.nodup_append, h, hnot]
      have ih := discover_loop_nodup p rest
        ((if pending then patchLast a.handle cs else cs) ++
          [new_characteristic p a]) true hnodup2
      simpa [discover_loop, hf] using ih

/-- The original characteristics are never touched: the loop result is
always the original list followed by some tail, and the pending patch only
ever lands inside that tail. -/
theorem discover_loop_prefix (p : String) (cs0 : List Characteristic) :
    ∀ (ds : List AttChar) (t : List Characteristic) (pending : Bool),
      (pending = true → t ≠ []) →
      ∃ t2 pd, discover_loop p ds (cs0 ++ t) pending = (cs0 ++ t2, pd) ∧
        (pd = true → t2 ≠ [])
  | [], t, pending => fun h => ⟨t, pending, rfl, h⟩
  | a :: rest, t, pending => by
    intro h
    by_cases hf : (find_char (cs0 ++ t) a.value_handle).isSome
    · obtain ⟨t2, pd, heq, h2⟩ := discover_loop_prefix p cs0 rest t pending h
      exact ⟨t2, pd, by simpa [discover_loop, hf] using heq, h2⟩
    · have hnext : (if pending then patchLast a.handle (cs0 ++ t) else cs0 ++ t)
          ++ [new_characteristic p a] =
          cs0 ++ ((if pending then patchLast a.handle t else t) ++
            [new_characteristic p a]) := by
        cases hp : pending
        · simp
        · rw [if_pos rfl, if_pos rfl,
            patchLast_append_left a.handle cs0 t (h hp), List.append_assoc]
      obtain ⟨t2, pd, heq, h2⟩ := discover_loop_prefix p cs0 rest
        ((if pending then patchLast a.handle t else t) ++
          [new_characteristic p a]) true (fun _ => by simp)
      refine ⟨t2, pd, ?_, h2⟩
      rw [← heq, ← hnext]
      simp [discover_loop, hf]
  termination_by ds => ds.length

/-- When every discovered entry's value handle is already present, every
entry is skipped and the list is returned untouched. -/
theorem discover_loop_skip_all (p : String) :
    ∀ (ds : List AttChar) (cs : List Characteristic) (pending : Bool),
      (∀ a ∈ ds, a.value_handle ∈ char_handles cs) →
      discover_loop p ds cs pending = (cs, pending)
  | [], _, _ => fun _ => rfl
  | a :: rest, cs, pending => by
    intro h
    have hf : (find_char cs a.value_handle).isSome :=
      (find_char_isSome_iff _ _).2 (h a (List.mem_cons_self a rest))
    simpa [discover_loop, hf] using
      discover_loop_skip_all p rest cs pending
        (fun b hb => h b (List.mem_cons_of_mem a hb))

/-- Claim C8: re-running discovery never duplicates a value handle — if
the primary's characteristics have pairwise distinct value handles, so
does the result; the pre-existing characteristics survive unchanged as the
initial segment of the result; and when every discovered entry's value
handle is already present the characteristic list is returned completely
unchanged. -/
theorem c8_rediscovery_no_duplicates (p : String) (e : Nat)
    (cs0 : List Characteristic) (ds : List AttChar) :
    ((char_handles cs0).Nodup →
      (char_handles (char_discovered_chars p e cs0 ds)).Nodup) ∧
    (∃ t, char_discovered_chars p e cs0 ds = cs0 ++ t) ∧
    ((∀ a ∈ ds, a.value_handle ∈ char_handles cs0) →
      char_discovered_chars p e cs0 ds = cs0) := by
  refine ⟨fun h => ?_, ?_, fun h => ?_⟩
  · have hn := discover_loop_nodup p ds cs0 false h
    unfold char_discovered_chars
    cases hl : discover_loop p ds cs0 false with
    | mk cs pd =>
      rw [hl] at hn
      cases pd
      · exact hn
      · simpa [char_handles_patchLast] using hn
  · obtain ⟨t2, pd, heq, h2⟩ := discover_loop_prefix p cs0 ds [] false
      (fun hc => nomatch hc)
    have heq2 : discover_loop p ds cs0 false = (cs0 ++ t2, pd) := by
      simpa using heq
    unfold char_discovered_chars
    rw [heq2]
    cases hpd : pd
    · exact ⟨t2, rfl⟩
    · exact ⟨patchLast e t2, patchLast_append_left e cs0 t2 (h2 hpd)⟩
  · unfold char_discovered_chars
    rw [discover_loop_skip_all p ds cs0 false h]

/-- The characteristics produced by the first discovery of the C1
scenario, used as the already-populated primary for the C8 witness. -/
def c8_cs0 : List Characteristic := char_discovered_chars "/p" 11 [] c1_ds

/-- Witness for C8: re-running the same discovery on the already-populated
primary keeps the handles distinct and changes nothing. -/
theorem c8_rediscovery_no_duplicates_witness :
    (char_handles (char_discovered_chars "/p" 11 c8_cs0 c1_ds)).Nodup ∧
    (∃ t, char_discovered_chars "/p" 11 c8_cs0 c1_ds = c8_cs0 ++ t) ∧
    char_discovered_chars "/p" 11 c8_cs0 c1_ds = c8_cs0 :=
  ⟨(c8_rediscovery_no_duplicates "/p" 11 c8_cs0 c1_ds).1 (by decide),
   (c8_rediscovery_no_duplicates "/p" 11 c8_cs0 c1_ds).2.1,
   (c8_rediscovery_no_duplicates "/p" 11 c8_cs0 c1_ds).2.2 (by decide)⟩

/-! ## Claim C7 -/

theorem hexDigitU_isHex (d : Nat) (h : d < 16) :
    isHexDigitCh (hexDigitU d) = true := by
  interval_cases d <;> decide

theorem hexVal_hexDigitU (d : Nat) (h : d < 16) : hexVal (hexDigitU d) = d := by
  interval_cases d <;> decide

theorem hexDigitU_ne_space (d : Nat) (h : d < 16) : hexDigitU d ≠ ' ' := by
  interval_cases d <;> decide

theorem hexDigitU_not_space (d : Nat) (h : d < 16) :
    isSpaceCh (hexDigitU d) = false := by
  interval_cases d <;> decide

theorem mem_hex4U_ne_space {ch : Char} {n : Nat} (h : ch ∈ hex4U n) :
    ch ≠ ' ' := by
  simp only [hex4U, List.mem_cons, List.mem_singleton, List.not_mem_nil,
    or_false] at h
  rcases h with rfl | rfl | rfl | rfl <;>
    exact hexDigitU_ne_space _ (Nat.mod_lt _ (by norm_num))

theorem mem_hex2U_ne_space {ch : Char} {n : Nat} (h : ch ∈ hex2U n) :
    ch ≠ ' ' := by
  simp only [hex2U, List.mem_cons, List.mem_singleton, List.not_mem_nil,
    or_false] at h
  rcases h with rfl | rfl <;>
    exact hexDigitU_ne_space _ (Nat.mod_lt _ (by norm_num))

/-- `%0nX` scanning consumes exactly the digits the formatter printed. -/
theorem takeHex_exact :
    ∀ (w : Nat) (digs rest : List Char), digs.length = w →
      (∀ c ∈ digs, isHexDigitCh c = true) → takeHex w (digs ++ rest) = digs
  | 0, digs, rest => by
    intro hlen _
    rw [List.length_eq_zero.mp hlen]
    simp [takeHex]
  | w + 1, digs, rest => by
    intro hlen hhex
    cases digs with
    | nil => simp at hlen
    | cons d ds =>
      have hd := hhex d (List.mem_cons_self d ds)
      have ih := takeHex_exact w ds rest (by simpa using hlen)
        (fun c hc => hhex c (List.mem_cons_of_mem d hc))
      simp only [List.cons_append, takeHex, hd, if_true]
      exact congrArg (d :: ·) ih

/-- Parsing `%04X` output of a `uint16_t` recovers the value and leaves
the rest of the input untouched. -/
theorem parseHexN_hex4U (n : Nat) (hn : n < 65536) (rest : List Char) :
    parseHexN 4 (hex4U n ++ rest) = some (n, rest) := by
  have h4 : ∀ c ∈ hex4U n, isHexDigitCh c = true := by
    intro c hc
    simp only [hex4U, List.mem_cons, List.mem_singleton, List.not_mem_nil,
      or_false] at hc
    rcases hc with rfl | rfl | rfl | rfl <;>
      exact hexDigitU_isHex _ (Nat.mod_lt _ (by norm_num))
  have htake : takeHex 4 (hex4U n ++ rest) = hex4U n :=
    takeHex_exact 4 (hex4U n) rest rfl h4
  have hne : hex4U n ≠ [] := by simp [hex4U]
  have e3 := hexVal_hexDigitU (n / 4096 % 16) (Nat.mod_lt _ (by norm_num))
  have e2 := hexVal_hexDigitU (n / 256 % 16) (Nat.mod_lt _ (by norm_num))
  have e1 := hexVal_hexDigitU (n / 16 % 16) (Nat.mod_lt _ (by norm_num))
  have e0 := hexVal_hexDigitU (n % 16) (Nat.mod_lt _ (by norm_num))
  have hfold : (hex4U n).foldl (fun acc d => 16 * acc + hexVal d) 0 = n := by
    simp only [hex4U, List.foldl_cons, List.foldl_nil, e3, e2, e1, e0]
    omega
  have hdrop : (hex4U n ++ rest).drop (hex4U n).length = rest :=
    List.drop_left _ _
  have hd0 : isSpaceCh (hexDigitU (n / 4096 % 16)) = false :=
    hexDigitU_not_space _ (Nat.mod_lt _ (by norm_num))
  have hds : (hex4U n ++ rest).dropWhile isSpaceCh = hex4U n ++ rest := by
    simp only [hex4U, List.cons_append, List.dropWhile_cons, hd0,
      Bool.false_eq_true, if_false]
  simp only [parseHexN, hds, htake, hne, if_false, hfold, hdrop]

/-- Parsing `%02X` output of a `uint8_t` recovers the value. -/
theorem parseHexN_hex2U (n : Nat) (hn : n < 256) (rest : List Char) :
    parseHexN 2 (hex2U n ++ rest) = some (n, rest) := by
  have h2 : ∀ c ∈ hex2U n, isHexDigitCh c = true := by
    intro c hc
    simp only [hex2U, List.mem_cons, List.mem_singleton, List.not_mem_nil,
      or_false] at hc
    rcases hc with rfl | rfl <;>
      exact hexDigitU_isHex _ (Nat.mod_lt _ (by norm_num))
  have htake : takeHex 2 (hex2U n ++ rest) = hex2U n :=
    takeHex_exact 2 (hex2U n) rest rfl h2
  have hne : hex2U n ≠ [] := by simp [hex2U]
  have e1 := hexVal_hexDigitU (n / 16 % 16) (Nat.mod_lt _ (by norm_num))
  have e0 := hexVal_hexDigitU (n % 16) (Nat.mod_lt _ (by norm_num))
  have hfold : (hex2U n).foldl (fun acc d => 16 * acc + hexVal d) 0 = n := by
    simp only [hex2U, List.foldl_cons, List.foldl_nil, e1, e0]
    omega
  have hdrop : (hex2U n ++ rest).drop (hex2U n).length = rest :=
    List.drop_left _ _
  have hd0 : isSpaceCh (hexDigitU (n / 16 % 16)) = false :=
    hexDigitU_not_space _ (Nat.mod_lt _ (by norm_num))
  have hds : (hex2U n ++ rest).dropWhile isSpaceCh = hex2U n ++ rest := by
    simp only [hex2U, List.cons_append, List.dropWhile_cons, hd0,
      Bool.false_eq_true, if_false]
  simp only [parseHexN, hds, htake, hne, if_false, hfold, hdrop]

theorem dropWhile_not_space :
    ∀ l : List Char, (∀ c ∈ l, isSpaceCh c = false) →
      l.dropWhile isSpaceCh = l
  | [] => fun _ => rfl
  | c :: l => by
    intro h
    have hc := h c (List.mem_cons_self c l)
    simp only [List.dropWhile_cons, hc, Bool.false_eq_true, if_false]

theorem takeWhile_not_space :
    ∀ l : List Char, (∀ c ∈ l, isSpaceCh c = false) →
      l.takeWhile (fun c => !isSpaceCh c) = l
  | [] => fun _ => rfl
  | c :: l => by
    intro h
    have hc := h c (List.mem_cons_self c l)
    have ih := takeWhile_not_space l
      (fun d hd => h d (List.mem_cons_of_mem c hd))
    simp only [List.takeWhile_cons, hc, Bool.not_false, if_true]
    exact congrArg (c :: ·) ih

/-- The record without its trailing separator space. -/
def char_token (chr : Characteristic) : List Char :=
  hex4U chr.handle ++ ('#' :: (hex2U chr.perm ++ ('#' :: (hex4U chr.end_handle
    ++ ('#' :: chr.type.toList)))))

theorem char_record_eq (chr : Characteristic) :
    char_record chr = char_token chr ++ [' '] := by
  simp [char_record, char_token]

theorem char_token_ne_space (c : Characteristic) (h : well_formed_char c) :
    ∀ ch ∈ char_token c, ch ≠ ' ' := by
  obtain ⟨_, _, _, _, h5, _⟩ := h
  intro ch hch
  simp only [char_token] at hch
  rcases List.mem_append.mp hch with hm | hm
  · exact mem_hex4U_ne_space hm
  · rcases List.mem_cons.mp hm with rfl | hm
    · decide
    · rcases List.mem_append.mp hm with hm | hm
      · exact mem_hex2U_ne_space hm
      · rcases List.mem_cons.mp hm with rfl | hm
        · decide
        · rcases List.mem_append.mp hm with hm | hm
          · exact mem_hex4U_ne_space hm
          · rcases List.mem_cons.mp hm with rfl | hm
            · decide
            · intro he
              have hsp := h5 ch hm
              rw [he] at hsp
              exact absurd hsp (by decide)

theorem string_eq_empty_of_toList {s : String} (h : s.toList = []) :
    s = "" := by
  cases s with
  | mk data =>
    simp only [String.toList] at h
    subst h
    rfl

theorem string_mk_toList (s : String) : String.mk s.toList = s := by
  cases s with
  | mk data => rfl

/-- `sscanf` recovers the four fields of one well-formed record. -/
theorem parse_char_token (pp : String) (c : Characteristic)
    (h : well_formed_char c) :
    parse_char_record pp (char_token c) =
      some (mk_characteristic pp c.handle c.perm c.end_handle c.type) := by
  obtain ⟨h1, h2, h3, h4, h5, _⟩ := h
  have e1 : parseHexN 4 (char_token c) =
      some (c.handle, '#' :: (hex2U c.perm ++ ('#' :: (hex4U c.end_handle
        ++ ('#' :: c.type.toList))))) :=
    parseHexN_hex4U c.handle h1 _
  have e2 := parseHexN_hex2U c.perm h2
    ('#' :: (hex4U c.end_handle ++ ('#' :: c.type.toList)))
  have e3 := parseHexN_hex4U c.end_handle h3 ('#' :: c.type.toList)
  have hdr : (c.type.toList).dropWhile isSpaceCh = c.type.toList :=
    dropWhile_not_space c.type.toList h5
  have htk : (c.type.toList).takeWhile (fun ch => !isSpaceCh ch) =
      c.type.toList :=
    takeWhile_not_space c.type.toList h5
  have htyne : c.type.toList ≠ [] := fun hl => h4 (string_eq_empty_of_toList hl)
  have x1 : expectCh '#' ('#' :: (hex2U c.perm ++ ('#' :: (hex4U c.end_handle
      ++ ('#' :: c.type.toList))))) = some (hex2U c.perm ++
      ('#' :: (hex4U c.end_handle ++ ('#' :: c.type.toList)))) := by
    simp [expectCh]
  have x2 : expectCh '#' ('#' :: (hex4U c.end_handle ++ ('#' :: c.type.toList)))
      = some (hex4U c.end_handle ++ ('#' :: c.type.toList)) := by
    simp [expectCh]
  have x3 : expectCh '#' ('#' :: c.type.toList) = some c.type.toList := by
    simp [expectCh]
  simp only [parse_char_record, e1, x1, e2, x2, e3, x3, hdr, htk]
  rw [if_neg htyne, string_mk_toList]

/-- Parsing the token-by-token split of a serialised list recovers the
persisted tuples in order. -/
theorem splitSp_token :
    ∀ (t rest : List Char), (∀ ch ∈ t, ch ≠ ' ') →
      splitSp (t ++ ' ' :: rest) = t :: splitSp rest
  | [], rest => by intro _; simp [splitSp]
  | c :: t, rest => by
    intro h
    have hc : c ≠ ' ' := h c (List.mem_cons_self c t)
    have ih := splitSp_token t rest (fun ch hch => h ch (List.mem_cons_of_mem c hch))
    show splitSp (c :: (t ++ ' ' :: rest)) = (c :: t) :: splitSp rest
    conv_lhs => unfold splitSp
    rw [if_neg hc, ih]

theorem filterMap_splitSp (pp : String) :
    ∀ chars : List Characteristic, (∀ c ∈ chars, well_formed_char c) →
      ((splitSp (chars.map char_record).flatten).filterMap
        (parse_char_record pp)).map char_tuple = chars.map char_tuple
  | [] => by intro _; rfl
  | c :: cs => by
    intro h
    have hwf := h c (List.mem_cons_self c cs)
    have ih := filterMap_splitSp pp cs
      (fun d hd => h d (List.mem_cons_of_mem c hd))
    have hrec : (List.map char_record (c :: cs)).flatten =
        char_token c ++ ' ' :: (List.map char_record cs).flatten := by
      simp [char_record_eq]
    rw [hrec, splitSp_token _ _ (char_token_ne_space c hwf)]
    simp only [List.filterMap_cons, parse_char_token pp c hwf, List.map_cons,
      ih]
    exact congrArg (· :: List.map char_tuple cs) rfl

/-- Claim C7: for every list of characteristics with well-formed fields,
parsing the space-separated cache string produced by serialising the list
yields characteristics with exactly the same
`(value_handle, properties, end_handle, uuid)` tuples in the same
order. -/
theorem c7_cache_roundtrip (pp : String) (chars : List Characteristic)
    (h : ∀ c ∈ chars, well_formed_char c) :
    (string_to_characteristic_list pp
        (characteristic_list_to_string chars)).map char_tuple =
      chars.map char_tuple := by
  cases chars with
  | nil => rfl
  | cons c cs =>
    have hne : (List.map char_record (c :: cs)).flatten ≠ [] := by
      simp [char_record, hex4U]
    unfold string_to_characteristic_list characteristic_list_to_string
    have htl : (String.mk (List.map char_record (c :: cs)).flatten).toList =
        (List.map char_record (c :: cs)).flatten := rfl
    rw [htl, if_neg hne]
    exact filterMap_splitSp pp (c :: cs) h

/-- The list used by the C7 witness: a short 16-bit UUID and a full
128-bit UUID string, with extreme field values. -/
def c7_chars : List Characteristic :=
  [{ handle := 18, perm := 10, end_handle := 21, type := "2a00" },
   { handle := 23, perm := 255, end_handle := 65535,
     type := "0000180a-0000-1000-8000-00805f9b34fb" }]

/-- Witness for C7 at the concrete two-characteristic list. -/
theorem c7_cache_roundtrip_witness :
    (string_to_characteristic_list "/p"
        (characteristic_list_to_string c7_chars)).map char_tuple =
      c7_chars.map char_tuple :=
  c7_cache_roundtrip "/p" c7_chars (by decide)

end GattClient
